import Mathlib

/-
Verification of the luxor-swap repository: a shallow embedding of the
constant-product swap calculator (programs/luxor-swap/src/curve,
programs/luxor-stake/src/curve/calculator.rs) and of the staking / reward /
buyback instructions (programs/luxor-swap/src/instructions), together with
theorems settling the frozen specification claims.

Machine integers are embedded as `Nat`; every Rust `checked_*` operation
becomes an `Option Nat` that is `none` exactly when the Rust call returns
`None` (an `unwrap` of such a `None`, i.e. a panic, is likewise modelled as
`none` / an error result: both abort the instruction).  An `as u64` cast is
modelled as truncation modulo 2^64, `u64::try_from` as a bounds check.
-/

namespace LuxorSwap

/-- FEE_RATE_DENOMINATOR_VALUE, the basis-point denominator (1_000_000). -/
def FEE_RATE_DENOMINATOR_VALUE : Nat := 1000000

/-- PRECISION, the fixed-point scale (10^9) from luxor-swap/src/lib.rs. -/
def PRECISION : Nat := 1000000000

/-- Largest value of a `u64`. -/
def U64MAX : Nat := 2 ^ 64 - 1

/-- Largest value of a `u128`. -/
def U128MAX : Nat := 2 ^ 128 - 1

/-- Rust `u64::checked_add`. -/
def cadd64 (a b : Nat) : Option Nat := if a + b ≤ U64MAX then some (a + b) else none

/-- Rust `u128::checked_add`. -/
def cadd128 (a b : Nat) : Option Nat := if a + b ≤ U128MAX then some (a + b) else none

/-- Rust `u64::checked_mul`. -/
def cmul64 (a b : Nat) : Option Nat := if a * b ≤ U64MAX then some (a * b) else none

/-- Rust `u128::checked_mul`. -/
def cmul128 (a b : Nat) : Option Nat := if a * b ≤ U128MAX then some (a * b) else none

/-- Rust `checked_sub` (both widths): `none` on underflow. -/
def csub (a b : Nat) : Option Nat := if b ≤ a then some (a - b) else none

/-- Rust `checked_div` (both widths): `none` on division by zero. -/
def cdiv (a b : Nat) : Option Nat := if b = 0 then none else some (a / b)

/-- Rust `checked_rem`: `none` on division by zero. -/
def crem (a b : Nat) : Option Nat := if b = 0 then none else some (a % b)

/-- Rust `as u64` cast: silent truncation modulo 2^64. -/
def u64cast (a : Nat) : Nat := a % 2 ^ 64

/-- Rust `u64::try_from` on a `u128` value: `none` when out of range. -/
def tryU64 (a : Nat) : Option Nat := if a ≤ U64MAX then some a else none

/-- Modelled from the spec: `CheckedCeilDiv` (crate::utils, file not present
under src/), section 4.2 of the spec: the exact-output curve divides with
ceiling rounding and fails on a zero denominator. -/
def checkedCeilDiv (a b : Nat) : Option Nat :=
  if b = 0 then none else some ((a + b - 1) / b)

namespace ConstantProductCurve

/-- swap_base_input_without_fees from curve/constant_product.rs:
`output = floor(input_amount * output_vault / (input_vault + input_amount))`. -/
def swap_base_input_without_fees
    (input_amount input_vault_amount output_vault_amount : Nat) : Option Nat := do
  let numerator ← cmul128 input_amount output_vault_amount
  let denominator ← cadd128 input_vault_amount input_amount
  cdiv numerator denominator

/-- swap_base_output_without_fees from curve/constant_product.rs:
`input = ceil(input_vault * output_amount / (output_vault - output_amount))`. -/
def swap_base_output_without_fees
    (output_amount input_vault_amount output_vault_amount : Nat) : Option Nat := do
  let numerator ← cmul128 input_vault_amount output_amount
  let denominator ← csub output_vault_amount output_amount
  checkedCeilDiv numerator denominator

end ConstantProductCurve

namespace Fees

/-- Modelled from the spec: the fee module (crate::curve::fees, file not
present under src/), section 4.1 of the spec.  The trading fee applies a
basis-point rate with denominator 1_000_000; it is rounded up so that the
pool never undercharges the fee. -/
def trading_fee (amount rate : Nat) : Option Nat := do
  let n ← cmul128 amount rate
  checkedCeilDiv n FEE_RATE_DENOMINATOR_VALUE

/-- Modelled from the spec: creator fee, same shape as the trading fee
(section 4.1), rounded up. -/
def creator_fee (amount rate : Nat) : Option Nat := do
  let n ← cmul128 amount rate
  checkedCeilDiv n FEE_RATE_DENOMINATOR_VALUE

/-- Modelled from the spec: protocol fee, taken from the trading fee
(section 4.1), floor division. -/
def protocol_fee (amount rate : Nat) : Option Nat := do
  let n ← cmul128 amount rate
  cdiv n FEE_RATE_DENOMINATOR_VALUE

/-- Modelled from the spec: fund fee, taken from the trading fee
(section 4.1), floor division. -/
def fund_fee (amount rate : Nat) : Option Nat := do
  let n ← cmul128 amount rate
  cdiv n FEE_RATE_DENOMINATOR_VALUE

/-- Modelled from the spec: the inverse fee computation (section 4.1):
given a post-fee amount, recover the pre-fee amount by ceiling division by
`(DENOMINATOR - rate)`; empty result on underflow or division by zero. -/
def calculate_pre_fee_amount (post_fee_amount rate : Nat) : Option Nat := do
  let numerator ← cmul128 post_fee_amount FEE_RATE_DENOMINATOR_VALUE
  let denominator ← csub FEE_RATE_DENOMINATOR_VALUE rate
  checkedCeilDiv numerator denominator

/-- Modelled from the spec: split a combined trade+creator fee total back
into components proportional to the two rates (section 4.1); empty result
when both rates are zero. -/
def split_creator_fee (total_fee trade_fee_rate creator_fee_rate : Nat) : Option Nat := do
  let n ← cmul128 total_fee creator_fee_rate
  cdiv n (trade_fee_rate + creator_fee_rate)

end Fees

/-- SwapResult from luxor-stake/src/curve/calculator.rs. -/
structure SwapResult where
  new_input_vault_amount : Nat
  new_output_vault_amount : Nat
  input_amount : Nat
  output_amount : Nat
  trade_fee : Nat
  protocol_fee : Nat
  fund_fee : Nat
  creator_fee : Nat
deriving Repr, DecidableEq

namespace CurveCalculator

/-- CurveCalculator::swap_base_input from luxor-stake/src/curve/calculator.rs. -/
def swap_base_input (input_amount input_vault_amount output_vault_amount
    trade_fee_rate creator_fee_rate protocol_fee_rate fund_fee_rate : Nat)
    (is_creator_fee_on_input : Bool) : Option SwapResult := do
  let trade_fee ← Fees.trading_fee input_amount trade_fee_rate
  let (input_amount_less_fees, creator_fee_in) ←
    if is_creator_fee_on_input then do
      let cf ← Fees.creator_fee input_amount creator_fee_rate
      let t ← csub input_amount trade_fee
      let r ← csub t cf
      pure (r, cf)
    else do
      let r ← csub input_amount trade_fee
      pure (r, 0)
  let protocol_fee ← Fees.protocol_fee trade_fee protocol_fee_rate
  let fund_fee ← Fees.fund_fee trade_fee fund_fee_rate
  let output_amount_swapped ← ConstantProductCurve.swap_base_input_without_fees
    input_amount_less_fees input_vault_amount output_vault_amount
  let (output_amount, creator_fee) ←
    if is_creator_fee_on_input then
      pure (output_amount_swapped, creator_fee_in)
    else do
      let cf ← Fees.creator_fee output_amount_swapped creator_fee_rate
      let o ← csub output_amount_swapped cf
      pure (o, cf)
  let niv ← cadd128 input_vault_amount input_amount_less_fees
  let nov ← csub output_vault_amount output_amount_swapped
  pure { new_input_vault_amount := niv
         new_output_vault_amount := nov
         input_amount := input_amount
         output_amount := output_amount
         trade_fee := trade_fee
         protocol_fee := protocol_fee
         fund_fee := fund_fee
         creator_fee := creator_fee }

/-- CurveCalculator::swap_base_output from luxor-stake/src/curve/calculator.rs.
The two `calculate_pre_fee_amount(...).unwrap()` panics of the source are
modelled, like every abort, as a `none` result. -/
def swap_base_output (output_amount input_vault_amount output_vault_amount
    trade_fee_rate creator_fee_rate protocol_fee_rate fund_fee_rate : Nat)
    (is_creator_fee_on_input : Bool) : Option SwapResult := do
  let (actual_output_amount, creator_fee_out) ←
    if is_creator_fee_on_input then
      pure (output_amount, 0)
    else do
      let w ← Fees.calculate_pre_fee_amount output_amount creator_fee_rate
      pure (w, w - output_amount)
  let input_amount_swapped ← ConstantProductCurve.swap_base_output_without_fees
    actual_output_amount input_vault_amount output_vault_amount
  let (input_amount, trade_fee, creator_fee) ←
    if is_creator_fee_on_input then do
      let iwf ← Fees.calculate_pre_fee_amount input_amount_swapped
        (trade_fee_rate + creator_fee_rate)
      let total_fee := iwf - input_amount_swapped
      let cf ← Fees.split_creator_fee total_fee trade_fee_rate creator_fee_rate
      pure (iwf, total_fee - cf, cf)
    else do
      let iwf ← Fees.calculate_pre_fee_amount input_amount_swapped trade_fee_rate
      pure (iwf, iwf - input_amount_swapped, creator_fee_out)
  let protocol_fee ← Fees.protocol_fee trade_fee protocol_fee_rate
  let fund_fee ← Fees.fund_fee trade_fee fund_fee_rate
  let niv ← cadd128 input_vault_amount input_amount_swapped
  let nov ← csub output_vault_amount actual_output_amount
  pure { new_input_vault_amount := niv
         new_output_vault_amount := nov
         input_amount := input_amount
         output_amount := output_amount
         trade_fee := trade_fee
         protocol_fee := protocol_fee
         fund_fee := fund_fee
         creator_fee := creator_fee }

end CurveCalculator

/-- One priced swap request against a simulated reserve pair (spec section 8:
"any sequence of priced swaps applied to a simulated reserve pair"). -/
inductive TradeReq where
  | exactIn (amount trade_fee_rate creator_fee_rate protocol_fee_rate fund_fee_rate : Nat)
      (is_creator_fee_on_input : Bool)
  | exactOut (amount trade_fee_rate creator_fee_rate protocol_fee_rate fund_fee_rate : Nat)
      (is_creator_fee_on_input : Bool)
deriving Repr, DecidableEq

/-- Apply one priced swap to a reserve pair, taking the new reserves from the
SwapResult, as the purchase and buyback flows do. -/
def applyTrade (p : Nat × Nat) : TradeReq → Option (Nat × Nat)
  | .exactIn a tr cr pr fr flag => do
      let r ← CurveCalculator.swap_base_input a p.1 p.2 tr cr pr fr flag
      pure (r.new_input_vault_amount, r.new_output_vault_amount)
  | .exactOut a tr cr pr fr flag => do
      let r ← CurveCalculator.swap_base_output a p.1 p.2 tr cr pr fr flag
      pure (r.new_input_vault_amount, r.new_output_vault_amount)

/-- Apply a sequence of priced swaps to a simulated reserve pair. -/
def applyTrades (p : Nat × Nat) : List TradeReq → Option (Nat × Nat)
  | [] => some p
  | t :: ts => do
      let q ← applyTrade p t
      applyTrades q ts

/-! ## State model of the staking program (programs/luxor-swap/src/states) -/

/-- StakeInfo account (states/stake_info.rs); the bump byte and account
addresses are plumbing and not part of the model. -/
structure StakeInfo where
  total_staked_sol : Nat
  total_stake_count : Nat
  total_sol_rewards_accrued : Nat
  last_tracked_sol_balance : Nat
  reward_per_token_sol_stored : Nat
  total_luxor_rewards_accrued : Nat
  total_sol_used_for_buyback : Nat
  last_update_timestamp : Nat
  last_buyback_timestamp : Nat
  reward_per_token_lxr_stored : Nat
  total_lxr_claimed : Nat
  total_lxr_forfeited : Nat
  buyback_count : Nat
  buyback_requested : Bool
deriving Repr, DecidableEq

/-- UserStakeInfo account (states/user_stake_info.rs); the owner pubkey is
modelled as a number, `0` standing for `Pubkey::default()`. -/
structure UserStakeInfo where
  owner : Nat
  total_staked_sol : Nat
  total_lxr_claimed : Nat
  total_lxr_forfeited : Nat
  base_lxr_holdings : Nat
  lxr_reward_per_token_completed : Nat
  lxr_rewards_pending : Nat
  blacklisted_sol : Nat
deriving Repr, DecidableEq

/-- GlobalConfig account (states/global_config.rs), numeric parameters and
flags only (vault addresses are plumbing). -/
structure GlobalConfig where
  admin : Nat
  bonus_rate : Nat
  max_stake_count_to_get_bonus : Nat
  min_swap_amount : Nat
  max_swap_amount : Nat
  fee_treasury_rate : Nat
  purchase_enabled : Bool
  redeem_enabled : Bool
  initial_lxr_allocation_vault : Nat
deriving Repr, DecidableEq

/-- Error outcomes of an instruction.  Named constructors mirror
src/error.rs; `arithmeticPanic` stands for any `unwrap()` of a failed
checked operation or failed cast, and `requireViolation` for an anonymous
`require_gt! / require_eq! / require_gte! / require_keys_eq!` failure. -/
inductive ErrorCode where
  | arithmeticPanic
  | requireViolation
  | ZeroTradingTokens
  | PurchaseDisabled
  | NoRewardsToClaim
  | BuybackAlreadyRequested
  | NoBuybackRequested
  | InsufficientRent
deriving Repr, DecidableEq

instance {ε α : Type} [DecidableEq ε] [DecidableEq α] : DecidableEq (Except ε α) := fun x y =>
  match x, y with
  | .error e, .error f => decidable_of_iff (e = f) (by simp)
  | .ok a, .ok b => decidable_of_iff (a = b) (by simp)
  | .error _, .ok _ => isFalse (fun h => Except.noConfusion h)
  | .ok _, .error _ => isFalse (fun h => Except.noConfusion h)

/-- Lift a checked-arithmetic result into an instruction result. -/
def liftOpt (e : ErrorCode) : Option α → Except ErrorCode α
  | some a => .ok a
  | none => .error e

/-- An Anchor `require!`-style guard. -/
def requireB (b : Bool) (e : ErrorCode) : Except ErrorCode Unit :=
  if b then .ok () else .error e

/-- The shared SOL-reward observation block of purchase.rs (lines 266-277)
and buyback.rs (lines 476-496): when the stake PDA balance exceeds the last
tracked balance, add the delta to the cumulative rewards, track the new
balance and advance the SOL reward index by `delta * PRECISION /
total_staked_sol`. -/
def accrueSolRewards (si : StakeInfo) (stake_pda_lamports : Nat) : Option StakeInfo :=
  if si.last_tracked_sol_balance < stake_pda_lamports then do
    let rewards_accured ← csub stake_pda_lamports si.last_tracked_sol_balance
    let acc ← cadd64 si.total_sol_rewards_accrued rewards_accured
    let num ← cmul128 rewards_accured PRECISION
    let inc ← cdiv num si.total_staked_sol
    let idx ← cadd128 si.reward_per_token_sol_stored inc
    some { si with total_sol_rewards_accrued := acc
                   last_tracked_sol_balance := stake_pda_lamports
                   reward_per_token_sol_stored := idx }
  else
    some si

/-- The bonus / inventory-scaled pricing adjustment of purchase.rs
(lines 248-260).  The guard uses the pre-increment stake count; the unchecked
`+ 1` of the source is modelled as exact addition (a stake count counts
past purchases and cannot reach 2^64). -/
def purchase_pricing (cfg : GlobalConfig)
    (total_stake_count luxor_vault_amount total_sol_needed : Nat) : Option Nat :=
  if total_stake_count + 1 ≤ cfg.max_stake_count_to_get_bonus then do
    let m ← cmul64 total_sol_needed cfg.bonus_rate
    let d ← cdiv m FEE_RATE_DENOMINATOR_VALUE
    csub total_sol_needed d
  else do
    let m ← cmul128 total_sol_needed luxor_vault_amount
    let q ← cdiv m cfg.initial_lxr_allocation_vault
    some (u64cast q)

/-- Observed environment of one purchase call: pool reserves and flags read
from the pinned Raydium pool, the treasury vault balance, the stake PDA
balance, the purchaser key and the clock. -/
structure PurchaseObs where
  pool_input_vault : Nat
  pool_output_vault : Nat
  creator_fee_rate : Nat
  is_creator_fee_on_input : Bool
  luxor_vault_amount : Nat
  stake_pda_lamports : Nat
  owner : Nat
  block_timestamp : Nat
deriving Repr, DecidableEq

/-- purchase (instructions/purchase.rs).  Returns the updated StakeInfo and
UserStakeInfo.  The `purchase_enabled` account constraint is the first check;
external transfers (SOL to the stake PDA, LXR to the user) are reflected in
the balances recorded in the returned state. -/
def purchase (cfg : GlobalConfig) (si : StakeInfo) (usi : UserStakeInfo)
    (obs : PurchaseObs) (lxr_to_purchase max_sol_amount : Nat) :
    Except ErrorCode (StakeInfo × UserStakeInfo) := do
  (requireB cfg.purchase_enabled .PurchaseDisabled)
  (requireB (decide (0 < lxr_to_purchase)) .requireViolation)
  let constant_before ← liftOpt .arithmeticPanic
    (cmul128 obs.pool_input_vault obs.pool_output_vault)
  let result ← liftOpt .ZeroTradingTokens
    (CurveCalculator.swap_base_output lxr_to_purchase obs.pool_input_vault
      obs.pool_output_vault 2500 obs.creator_fee_rate 120000 40000
      obs.is_creator_fee_on_input)
  let constant_after ← liftOpt .arithmeticPanic
    (cmul128 result.new_input_vault_amount result.new_output_vault_amount)
  let outU ← liftOpt .arithmeticPanic (tryU64 result.output_amount)
  (requireB (decide (outU = lxr_to_purchase)) .requireViolation)
  (requireB (decide (constant_before ≤ constant_after)) .requireViolation)
  let sol_priced ← liftOpt .arithmeticPanic (tryU64 result.input_amount)
  let total_sol_needed ← liftOpt .arithmeticPanic
    (purchase_pricing cfg si.total_stake_count obs.luxor_vault_amount sol_priced)
  (requireB (decide (total_sol_needed ≤ max_sol_amount)) .requireViolation)
  let si1 ← liftOpt .arithmeticPanic (accrueSolRewards si obs.stake_pda_lamports)
  let new_lamports := obs.stake_pda_lamports + total_sol_needed
  let staked ← liftOpt .arithmeticPanic (cadd64 si1.total_staked_sol total_sol_needed)
  let cnt ← liftOpt .arithmeticPanic (cadd64 si1.total_stake_count 1)
  let si2 : StakeInfo :=
    { si1 with total_staked_sol := staked
               total_stake_count := cnt
               last_tracked_sol_balance := new_lamports
               last_update_timestamp := obs.block_timestamp }
  let usi1 : UserStakeInfo :=
    if usi.owner = 0 then
      { usi with owner := obs.owner
                 lxr_reward_per_token_completed := si2.reward_per_token_lxr_stored }
    else
      usi
  let ustk ← liftOpt .arithmeticPanic (cadd64 usi1.total_staked_sol total_sol_needed)
  let ubase ← liftOpt .arithmeticPanic (cadd64 usi1.base_lxr_holdings lxr_to_purchase)
  pure (si2, { usi1 with total_staked_sol := ustk, base_lxr_holdings := ubase })

/-- The SOL-reward observation block of manual_purchase.rs (lines 161-167):
unlike the purchase.rs / buyback.rs block it adds the delta to the cumulative
rewards and tracks the new balance but does NOT advance
`reward_per_token_sol_stored`. -/
def manualObserve (si : StakeInfo) (stake_pda_lamports : Nat) : Option StakeInfo :=
  if si.last_tracked_sol_balance < stake_pda_lamports then do
    let rewards_accured ← csub stake_pda_lamports si.last_tracked_sol_balance
    let acc ← cadd64 si.total_sol_rewards_accrued rewards_accured
    some { si with total_sol_rewards_accrued := acc
                   last_tracked_sol_balance := stake_pda_lamports }
  else
    some si

/-- Observed environment of one manual-purchase call. -/
structure ManualPurchaseObs where
  stake_pda_lamports : Nat
  user : Nat
  block_timestamp : Nat
deriving Repr, DecidableEq

/-- manual_purchase (instructions/manual_purchase.rs).  The admin-signer
constraint and the stake-delegation CPI are plumbing; the state mutations are
modelled exactly, including the single-`PRECISION` division in the accrual of
the existing user record (lines 218-230). -/
def manual_purchase (si : StakeInfo) (usi : UserStakeInfo)
    (obs : ManualPurchaseObs) (lxr_purchased sol_spent : Nat) :
    Except ErrorCode (StakeInfo × UserStakeInfo) := do
  let si1 ← liftOpt .arithmeticPanic (manualObserve si obs.stake_pda_lamports)
  let new_lamports := obs.stake_pda_lamports + sol_spent
  let staked ← liftOpt .arithmeticPanic (cadd64 si1.total_staked_sol sol_spent)
  let si2 : StakeInfo :=
    { si1 with total_staked_sol := staked
               last_tracked_sol_balance := new_lamports
               last_update_timestamp := obs.block_timestamp }
  let usi1 ←
    if usi.owner = 0 then
      pure { usi with owner := obs.user
                      lxr_reward_per_token_completed := si2.reward_per_token_lxr_stored }
    else do
      let delta ← liftOpt .arithmeticPanic
        (csub si2.reward_per_token_lxr_stored usi.lxr_reward_per_token_completed)
      let num ← liftOpt .arithmeticPanic (cmul128 usi.total_staked_sol delta)
      let q ← liftOpt .arithmeticPanic (cdiv num PRECISION)
      let toClaim := u64cast q
      let pend ← liftOpt .arithmeticPanic (cadd64 usi.lxr_rewards_pending toClaim)
      pure { usi with lxr_rewards_pending := pend
                      lxr_reward_per_token_completed := si2.reward_per_token_lxr_stored }
  let ustk ← liftOpt .arithmeticPanic (cadd64 usi1.total_staked_sol sol_spent)
  let ubase ← liftOpt .arithmeticPanic (cadd64 usi1.base_lxr_holdings lxr_purchased)
  pure (si2, { usi1 with total_staked_sol := ustk, base_lxr_holdings := ubase })

/-- redeem (instructions/redeem.rs).  `cfg` is the bound GlobalConfig account:
no constraint of the Redeem accounts context and no statement of the handler
reads `cfg.redeem_enabled`.  Returns the updated records together with the
claimable and forfeited amounts routed to the user and the treasury. -/
def redeem (cfg : GlobalConfig) (si : StakeInfo) (usi : UserStakeInfo)
    (owner_lxr_token_amount : Nat) :
    Except ErrorCode (StakeInfo × UserStakeInfo × Nat × Nat) := do
  let delta ← liftOpt .arithmeticPanic
    (csub si.reward_per_token_lxr_stored usi.lxr_reward_per_token_completed)
  (requireB (decide (0 < delta)) .NoRewardsToClaim)
  let num ← liftOpt .arithmeticPanic (cmul128 usi.total_staked_sol delta)
  let q1 ← liftOpt .arithmeticPanic (cdiv num PRECISION)
  let q2 ← liftOpt .arithmeticPanic (cdiv q1 PRECISION)
  let base_claim := u64cast q2
  (requireB (decide (0 < base_claim)) .NoRewardsToClaim)
  let (pro_rated, forfieted) ←
    if owner_lxr_token_amount < usi.base_lxr_holdings then do
      let m ← liftOpt .arithmeticPanic (cmul128 owner_lxr_token_amount base_claim)
      let d ← liftOpt .arithmeticPanic (cdiv m usi.base_lxr_holdings)
      let pro := u64cast d
      let f ← liftOpt .arithmeticPanic (csub base_claim pro)
      pure (pro, f)
    else
      pure (base_claim, 0)
  let claim ← liftOpt .arithmeticPanic (cadd64 pro_rated usi.lxr_rewards_pending)
  let uclaimed ← liftOpt .arithmeticPanic (cadd64 usi.total_lxr_claimed claim)
  let uforf ← liftOpt .arithmeticPanic (cadd64 usi.total_lxr_forfeited forfieted)
  let gclaimed ← liftOpt .arithmeticPanic (cadd64 si.total_lxr_claimed claim)
  let gforf ← liftOpt .arithmeticPanic (cadd64 si.total_lxr_forfeited forfieted)
  pure ({ si with total_lxr_claimed := gclaimed, total_lxr_forfeited := gforf },
        { usi with total_lxr_claimed := uclaimed
                   total_lxr_forfeited := uforf
                   lxr_reward_per_token_completed := si.reward_per_token_lxr_stored
                   lxr_rewards_pending := 0 },
        claim, forfieted)

/-- blacklist (instructions/blacklist.rs).  `si` is read-only here; the
target record and the admin sink record are both updated.  `owner` is the
admin key used for the lazy initialization of the sink record. -/
def blacklist (si : StakeInfo) (usi admin_usi : UserStakeInfo) (owner : Nat) :
    Except ErrorCode (UserStakeInfo × UserStakeInfo) := do
  let admin1 : UserStakeInfo :=
    if admin_usi.owner = 0 then
      { admin_usi with owner := owner
                       lxr_reward_per_token_completed := si.reward_per_token_lxr_stored }
    else
      admin_usi
  let deltaU ← liftOpt .arithmeticPanic
    (csub si.reward_per_token_lxr_stored usi.lxr_reward_per_token_completed)
  let numU ← liftOpt .arithmeticPanic (cmul128 usi.total_staked_sol deltaU)
  let q1 ← liftOpt .arithmeticPanic (cdiv numU PRECISION)
  let q2 ← liftOpt .arithmeticPanic (cdiv q1 PRECISION)
  let toClaimU := u64cast q2
  let upend ← liftOpt .arithmeticPanic (cadd64 usi.lxr_rewards_pending toClaimU)
  let uforf ← liftOpt .arithmeticPanic (cadd64 usi.total_lxr_forfeited upend)
  let ublack ← liftOpt .arithmeticPanic (cadd64 usi.blacklisted_sol usi.total_staked_sol)
  let deltaA ← liftOpt .arithmeticPanic
    (csub si.reward_per_token_lxr_stored admin1.lxr_reward_per_token_completed)
  let numA ← liftOpt .arithmeticPanic (cmul128 admin1.total_staked_sol deltaA)
  let p1 ← liftOpt .arithmeticPanic (cdiv numA PRECISION)
  let p2 ← liftOpt .arithmeticPanic (cdiv p1 PRECISION)
  let toClaimA := u64cast p2
  let apend ← liftOpt .arithmeticPanic (cadd64 admin1.lxr_rewards_pending toClaimA)
  let astk ← liftOpt .arithmeticPanic (cadd64 admin1.total_staked_sol usi.total_staked_sol)
  let apend2 ← liftOpt .arithmeticPanic (cadd64 apend upend)
  pure ({ usi with lxr_rewards_pending := 0
                   total_lxr_forfeited := uforf
                   blacklisted_sol := ublack
                   lxr_reward_per_token_completed := si.reward_per_token_lxr_stored
                   total_staked_sol := 0
                   base_lxr_holdings := 0 },
        { admin1 with lxr_rewards_pending := apend2
                      lxr_reward_per_token_completed := si.reward_per_token_lxr_stored
                      total_staked_sol := astk })

/-- Observed environment of one buyback call: the stake PDA and split-PDA
balances, the rent-exempt minimum, the Raydium pool reserves and flags, and
the clock. -/
structure BuybackObs where
  stake_pda_lamports : Nat
  split_lamports : Nat
  min_rent : Nat
  pool_input_vault : Nat
  pool_output_vault : Nat
  creator_fee_rate : Nat
  is_creator_fee_on_input : Bool
  block_timestamp : Nat
deriving Repr, DecidableEq

/-- The request branch of buyback (buyback.rs lines 441-519, taken when
`buyback_requested` is false).  The `require!(!buyback_requested,
BuybackAlreadyRequested)` of line 443 is kept although the dispatch makes it
vacuous.  The Stake split CPI moves the available rewards out of the stake
PDA and fails if the PDA lacks the requested lamports; line 516 then records
the remaining PDA balance. -/
def buybackRequest (cfg : GlobalConfig) (si : StakeInfo) (obs : BuybackObs) :
    Except ErrorCode StakeInfo := do
  (requireB (!si.buyback_requested) .BuybackAlreadyRequested)
  (requireB (decide (0 < obs.min_rent)) .InsufficientRent)
  let si1 ← liftOpt .arithmeticPanic (accrueSolRewards si obs.stake_pda_lamports)
  let available ← liftOpt .arithmeticPanic
    (csub si1.total_sol_rewards_accrued si1.total_sol_used_for_buyback)
  (requireB (decide (available ≤ obs.stake_pda_lamports)) .requireViolation)
  pure { si1 with last_tracked_sol_balance := obs.stake_pda_lamports - available
                  buyback_requested := true
                  last_update_timestamp := obs.block_timestamp }

/-- The settlement branch of buyback (buyback.rs lines 217-439, taken when
`buyback_requested` is true).  The `require!(buyback_requested,
NoBuybackRequested)` of line 219 is kept although the dispatch makes it
vacuous. -/
def buybackSettle (cfg : GlobalConfig) (si : StakeInfo) (obs : BuybackObs) :
    Except ErrorCode StakeInfo := do
  (requireB si.buyback_requested .NoBuybackRequested)
  (requireB (decide (0 < obs.min_rent)) .InsufficientRent)
  let sol_withdrawan ← liftOpt .arithmeticPanic (csub obs.split_lamports obs.min_rent)
  let feeNum ← liftOpt .arithmeticPanic (cmul128 sol_withdrawan cfg.fee_treasury_rate)
  let feeQ ← liftOpt .arithmeticPanic (cdiv feeNum FEE_RATE_DENOMINATOR_VALUE)
  let fee_treasury := u64cast feeQ
  (requireB (decide (0 < fee_treasury)) .ZeroTradingTokens)
  let actual_amount_in ← liftOpt .arithmeticPanic (csub sol_withdrawan fee_treasury)
  (requireB (decide (0 < actual_amount_in)) .requireViolation)
  let constant_before ← liftOpt .arithmeticPanic
    (cmul128 obs.pool_input_vault obs.pool_output_vault)
  let result ← liftOpt .ZeroTradingTokens
    (CurveCalculator.swap_base_input actual_amount_in obs.pool_input_vault
      obs.pool_output_vault 2500 obs.creator_fee_rate 120000 40000
      obs.is_creator_fee_on_input)
  let constant_after ← liftOpt .arithmeticPanic
    (cmul128 result.new_input_vault_amount result.new_output_vault_amount)
  let inU ← liftOpt .arithmeticPanic (tryU64 result.input_amount)
  (requireB (decide (inU = actual_amount_in)) .requireViolation)
  (requireB (decide (constant_before ≤ constant_after)) .requireViolation)
  let lxr_bought ← liftOpt .arithmeticPanic (tryU64 result.output_amount)
  let lacc ← liftOpt .arithmeticPanic (cadd64 si.total_luxor_rewards_accrued lxr_bought)
  let used ← liftOpt .arithmeticPanic (cadd64 si.total_sol_used_for_buyback actual_amount_in)
  let idxNum ← liftOpt .arithmeticPanic (cmul128 lxr_bought PRECISION)
  let idxInc ← liftOpt .arithmeticPanic (cdiv idxNum si.total_staked_sol)
  let lidx ← liftOpt .arithmeticPanic (cadd128 si.reward_per_token_lxr_stored idxInc)
  let cnt ← liftOpt .arithmeticPanic (cadd64 si.buyback_count 1)
  pure { si with total_luxor_rewards_accrued := lacc
                 total_sol_used_for_buyback := used
                 last_buyback_timestamp := obs.block_timestamp
                 reward_per_token_lxr_stored := lidx
                 buyback_requested := false
                 buyback_count := cnt }

/-- buyback (instructions/buyback.rs, line 213): the single entry point
dispatches on `stake_info.buyback_requested` — settlement when the flag is
set, request when it is clear. -/
def buyback (cfg : GlobalConfig) (si : StakeInfo) (obs : BuybackObs) :
    Except ErrorCode StakeInfo :=
  if si.buyback_requested then buybackSettle cfg si obs else buybackRequest cfg si obs

/-! Concrete fixtures used to exercise the instruction models. -/

/-- A configuration with a 10% bonus for the first ten stakes, a 10% treasury
fee, purchasing enabled and redemption DISABLED. -/
def cfgA : GlobalConfig :=
  { admin := 9, bonus_rate := 100000, max_stake_count_to_get_bonus := 10,
    min_swap_amount := 0, max_swap_amount := 1000000000,
    fee_treasury_rate := 100000, purchase_enabled := true,
    redeem_enabled := false, initial_lxr_allocation_vault := 1000 }

/-- The genesis aggregate state: everything zero, no buyback in progress. -/
def siGenesis : StakeInfo :=
  { total_staked_sol := 0, total_stake_count := 0, total_sol_rewards_accrued := 0,
    last_tracked_sol_balance := 0, reward_per_token_sol_stored := 0,
    total_luxor_rewards_accrued := 0, total_sol_used_for_buyback := 0,
    last_update_timestamp := 0, last_buyback_timestamp := 0,
    reward_per_token_lxr_stored := 0, total_lxr_claimed := 0,
    total_lxr_forfeited := 0, buyback_count := 0, buyback_requested := false }

/-- A fresh (uninitialized) user record. -/
def usiGenesis : UserStakeInfo :=
  { owner := 0, total_staked_sol := 0, total_lxr_claimed := 0,
    total_lxr_forfeited := 0, base_lxr_holdings := 0,
    lxr_reward_per_token_completed := 0, lxr_rewards_pending := 0,
    blacklisted_sol := 0 }

/-- An aggregate state with 1000 lamports staked and an LXR index of
2 * PRECISION^2, i.e. two whole LXR per staked lamport under the documented
PRECISION^2 scaling. -/
def siIndexed : StakeInfo :=
  { siGenesis with total_staked_sol := 1000, total_stake_count := 1,
                   reward_per_token_lxr_stored := 2 * PRECISION * PRECISION }

/-- An existing user record: 100 lamports staked, checkpoint at zero. -/
def usiStaked : UserStakeInfo :=
  { usiGenesis with owner := 7, total_staked_sol := 100, base_lxr_holdings := 50 }

/-- An existing user record with a stored pending balance of 5 LXR. -/
def usiPend : UserStakeInfo := { usiGenesis with owner := 7, lxr_rewards_pending := 5 }

/-- An aggregate state with 1000 lamports staked, used as an Idle starting
point for buyback runs. -/
def siB1 : StakeInfo := { siGenesis with total_staked_sol := 1000, total_stake_count := 1 }

/-- The Requested state produced by `buyback cfgA siB1 obsR1`. -/
def siR1 : StakeInfo :=
  { siGenesis with
    total_staked_sol := 1000
    total_stake_count := 1
    total_sol_rewards_accrued := 500
    reward_per_token_sol_stored := 500000000
    last_update_timestamp := 21
    buyback_requested := true }

/-- Observed purchase environment: balanced million-unit pool, treasury
holding 500 of the initial 1000 allocation, empty stake PDA. -/
def obsP : PurchaseObs :=
  { pool_input_vault := 1000000, pool_output_vault := 1000000, creator_fee_rate := 0,
    is_creator_fee_on_input := false, luxor_vault_amount := 500,
    stake_pda_lamports := 0, owner := 7, block_timestamp := 11 }

/-- Buyback request observation: the stake PDA gained 500 lamports of rewards
on top of the 9116 staked by the purchase from `siGenesis`. -/
def obsR : BuybackObs :=
  { stake_pda_lamports := 9616, split_lamports := 0, min_rent := 1,
    pool_input_vault := 1000000, pool_output_vault := 1000000, creator_fee_rate := 0,
    is_creator_fee_on_input := false, block_timestamp := 13 }

/-- Buyback settlement observation in which the deactivated split account
holds 600 lamports above rent — more than the 500 lamports of rewards that
were split into it (extra staking rewards arrived while deactivating). -/
def obsS : BuybackObs :=
  { stake_pda_lamports := 9116, split_lamports := 601, min_rent := 1,
    pool_input_vault := 1000000, pool_output_vault := 1000000, creator_fee_rate := 0,
    is_creator_fee_on_input := false, block_timestamp := 14 }

/-- Buyback request observation for the `siB1` starting state. -/
def obsR1 : BuybackObs :=
  { stake_pda_lamports := 500, split_lamports := 0, min_rent := 1,
    pool_input_vault := 1000000, pool_output_vault := 1000000, creator_fee_rate := 0,
    is_creator_fee_on_input := false, block_timestamp := 21 }

/-- Buyback settlement observation for the `siR1` state: the split account
holds the 450 lamports that fit the available budget, plus rent. -/
def obsS1 : BuybackObs :=
  { stake_pda_lamports := 0, split_lamports := 451, min_rent := 1,
    pool_input_vault := 1000000, pool_output_vault := 1000000, creator_fee_rate := 0,
    is_creator_fee_on_input := false, block_timestamp := 22 }

/-- Manual purchase observation: 500 lamports of new rewards on the PDA. -/
def obsM : ManualPurchaseObs := { stake_pda_lamports := 500, user := 7, block_timestamp := 12 }

/-- The state produced by `accrueSolRewards siB1 500`. -/
def siObs1 : StakeInfo :=
  { siB1 with total_sol_rewards_accrued := 500, last_tracked_sol_balance := 500,
              reward_per_token_sol_stored := 500000000 }

/-- The state produced by `manualObserve siB1 500`. -/
def siObsM : StakeInfo :=
  { siB1 with total_sol_rewards_accrued := 500, last_tracked_sol_balance := 500 }

/-- The target record produced by `blacklist siGenesis usiPend usiGenesis 9`. -/
def u1B : UserStakeInfo :=
  { owner := 7, total_staked_sol := 0, total_lxr_claimed := 0, total_lxr_forfeited := 5,
    base_lxr_holdings := 0, lxr_reward_per_token_completed := 0, lxr_rewards_pending := 0,
    blacklisted_sol := 0 }

/-- The sink record produced by `blacklist siGenesis usiPend usiGenesis 9`. -/
def a1B : UserStakeInfo :=
  { owner := 9, total_staked_sol := 0, total_lxr_claimed := 0, total_lxr_forfeited := 0,
    base_lxr_holdings := 0, lxr_reward_per_token_completed := 0, lxr_rewards_pending := 5,
    blacklisted_sol := 0 }

/-- The SOL budget invariant claimed by the spec for the aggregate state. -/
abbrev SolBudgetInv (si : StakeInfo) : Prop :=
  si.total_sol_used_for_buyback ≤ si.total_sol_rewards_accrued

/-! Inversion lemmas for the checked operations. -/

theorem cadd128_some {a b v : Nat} (h : cadd128 a b = some v) : v = a + b := by
  unfold cadd128 at h; split at h <;> simp_all

theorem cmul128_some {a b v : Nat} (h : cmul128 a b = some v) : v = a * b := by
  unfold cmul128 at h; split at h <;> simp_all

theorem cmul64_some {a b v : Nat} (h : cmul64 a b = some v) : v = a * b := by
  unfold cmul64 at h; split at h <;> simp_all

theorem cadd64_some {a b v : Nat} (h : cadd64 a b = some v) : v = a + b := by
  unfold cadd64 at h; split at h <;> simp_all

theorem csub_some {a b v : Nat} (h : csub a b = some v) : b ≤ a ∧ v = a - b := by
  unfold csub at h; split at h <;> simp_all

theorem cdiv_some {a b v : Nat} (h : cdiv a b = some v) : b ≠ 0 ∧ v = a / b := by
  unfold cdiv at h; split at h <;> simp_all

theorem checkedCeilDiv_some {a b v : Nat} (h : checkedCeilDiv a b = some v) :
    b ≠ 0 ∧ v = (a + b - 1) / b := by
  unfold checkedCeilDiv at h; split at h <;> simp_all

/-- Ceiling division rounds up: `a ≤ b * ceil(a / b)` for `b ≠ 0`. -/
theorem le_mul_ceilDiv (a b : Nat) (hb : b ≠ 0) : a ≤ b * ((a + b - 1) / b) := by
  have h1 := Nat.div_add_mod (a + b - 1) b
  have h2 := Nat.mod_lt (a + b - 1) (Nat.pos_of_ne_zero hb)
  set p := b * ((a + b - 1) / b) with hp
  omega

/-- Characterization of the ceiling quotient: it is at most `m` iff `a ≤ b * m`. -/
theorem ceilDiv_le_iff {a b m : Nat} (hb : b ≠ 0) : (a + b - 1) / b ≤ m ↔ a ≤ b * m := by
  constructor
  · intro h
    have := Nat.mul_le_mul_left b h
    have h0 := le_mul_ceilDiv a b hb
    exact Nat.le_trans h0 this
  · intro h
    have hpos : 0 < b := Nat.pos_of_ne_zero hb
    rw [Nat.div_le_iff_le_mul_add_pred hpos]
    omega

/-! Constant-product invariant for the two fee-free curve computations. -/

theorem swap_base_input_without_fees_invariant {dx x y out : Nat}
    (h : ConstantProductCurve.swap_base_input_without_fees dx x y = some out) :
    x * y ≤ (x + dx) * (y - out) ∧ out ≤ y := by
  unfold ConstantProductCurve.swap_base_input_without_fees at h
  simp only [Option.bind_eq_bind, Option.bind_eq_some] at h
  obtain ⟨n, hn, d, hd, hq⟩ := h
  obtain rfl := cmul128_some hn
  obtain rfl := cadd128_some hd
  obtain ⟨hdne, rfl⟩ := cdiv_some hq
  have hout_le : dx * y / (x + dx) ≤ y := by
    calc dx * y / (x + dx) ≤ (x + dx) * y / (x + dx) :=
          Nat.div_le_div_right (Nat.mul_le_mul_right _ (Nat.le_add_left _ _))
    _ = y := Nat.mul_div_cancel_left _ (Nat.pos_of_ne_zero hdne)
  refine ⟨?_, hout_le⟩
  have hmul : dx * y / (x + dx) * (x + dx) ≤ dx * y := Nat.div_mul_le_self _ _
  have hsplit : (x + dx) * (y - dx * y / (x + dx)) + (x + dx) * (dx * y / (x + dx))
      = (x + dx) * y := by
    rw [← Nat.mul_add, Nat.sub_add_cancel hout_le]
  have hexp : (x + dx) * y = x * y + dx * y := Nat.add_mul x dx y
  have hcomm : (x + dx) * (dx * y / (x + dx)) = dx * y / (x + dx) * (x + dx) :=
    Nat.mul_comm _ _
  omega

theorem swap_base_output_without_fees_invariant {dy x y inAmt : Nat}
    (h : ConstantProductCurve.swap_base_output_without_fees dy x y = some inAmt) :
    x * y ≤ (x + inAmt) * (y - dy) ∧ dy < y := by
  unfold ConstantProductCurve.swap_base_output_without_fees at h
  simp only [Option.bind_eq_bind, Option.bind_eq_some] at h
  obtain ⟨n, hn, d, hd, hq⟩ := h
  obtain rfl := cmul128_some hn
  obtain ⟨hle, rfl⟩ := csub_some hd
  obtain ⟨hdne, rfl⟩ := checkedCeilDiv_some hq
  have hlt : dy < y := by omega
  refine ⟨?_, hlt⟩
  have hceil : x * dy ≤ (y - dy) * ((x * dy + (y - dy) - 1) / (y - dy)) :=
    le_mul_ceilDiv _ _ hdne
  have hsplit : (x + (x * dy + (y - dy) - 1) / (y - dy)) * (y - dy)
      = x * (y - dy) + ((x * dy + (y - dy) - 1) / (y - dy)) * (y - dy) :=
    Nat.add_mul _ _ _
  have hx : x * (y - dy) + x * dy = x * y := by
    rw [← Nat.mul_add, Nat.sub_add_cancel hle]
  have hcomm : ((x * dy + (y - dy) - 1) / (y - dy)) * (y - dy)
      = (y - dy) * ((x * dy + (y - dy) - 1) / (y - dy)) := Nat.mul_comm _ _
  omega

/-- Shape of a successful exact-input pricing: the new reserves come from
adding the post-fee input and subtracting the raw curve output. -/
theorem swap_base_input_reserves {a x y tr cr pr fr : Nat} {flag : Bool} {r : SwapResult}
    (h : CurveCalculator.swap_base_input a x y tr cr pr fr flag = some r) :
    ∃ less out, ConstantProductCurve.swap_base_input_without_fees less x y = some out ∧
      r.new_input_vault_amount = x + less ∧ r.new_output_vault_amount = y - out ∧
      out ≤ y := by
  cases flag
  · unfold CurveCalculator.swap_base_input at h
    simp only [Option.bind_eq_bind, Option.bind_eq_some, Option.pure_def,
      Option.some.injEq, Bool.false_eq_true, if_false, if_true, reduceIte,
      Prod.mk.injEq, Prod.exists, exists_and_left, exists_and_right] at h
    obtain ⟨tf, htf, less, hless, pf, ⟨hpf, -⟩, ff, hff, outS, houtS, rest⟩ := h
    obtain ⟨out, hout, cf2, hcf2, o3, ho3, o4, b4, ⟨h43, hb4⟩, niv, hniv, nov, hnov, hrec⟩ := rest
    obtain rfl := cadd128_some hniv
    obtain ⟨hley, rfl⟩ := csub_some hnov
    refine ⟨pf, out, hout, ?_, ?_, hley⟩ <;> rw [← hrec]
  · unfold CurveCalculator.swap_base_input at h
    simp only [Option.bind_eq_bind, Option.bind_eq_some, Option.pure_def,
      Option.some.injEq, Bool.false_eq_true, if_false, if_true, reduceIte,
      Prod.mk.injEq, Prod.exists, exists_and_left, exists_and_right] at h
    obtain ⟨tf, htf, cf, hcf, t1, ht1, lf, hlf, lf2, cf2, ⟨⟨hlf2, hcf2⟩, rest⟩⟩ := h
    obtain ⟨pf, hpf, ff, hff, out, hout, o4, b4, ⟨h43, hb4⟩, niv, hniv, nov, hnov, hrec⟩ := rest
    obtain rfl := cadd128_some hniv
    obtain ⟨hley, rfl⟩ := csub_some hnov
    refine ⟨lf2, out, hout, ?_, ?_, hley⟩ <;> rw [← hrec]

/-- Shape of a successful exact-output pricing: the new reserves come from
adding the ceiling-rounded required input and subtracting the (possibly
creator-fee grossed-up) output actually taken from the vault. -/
theorem swap_base_output_reserves {dy x y tr cr pr fr : Nat} {flag : Bool} {r : SwapResult}
    (h : CurveCalculator.swap_base_output dy x y tr cr pr fr flag = some r) :
    ∃ actual inAmt,
      ConstantProductCurve.swap_base_output_without_fees actual x y = some inAmt ∧
      r.new_input_vault_amount = x + inAmt ∧ r.new_output_vault_amount = y - actual ∧
      actual ≤ y := by
  cases flag
  · unfold CurveCalculator.swap_base_output at h
    simp only [Option.bind_eq_bind, Option.bind_eq_some, Option.pure_def,
      Option.some.injEq, Bool.false_eq_true, reduceIte, Prod.mk.injEq, Prod.exists] at h
    obtain ⟨w, hw, a1, b1, ⟨rfl, rfl⟩, i, hi, iwf, hiwf, a3, a4, b2, ⟨rfl, rfl, rfl⟩,
      p5, hp5, f6, hf6, niv, hniv, nov, hnov, hrec⟩ := h
    obtain rfl := cadd128_some hniv
    obtain ⟨hley, rfl⟩ := csub_some hnov
    refine ⟨w, i, hi, ?_, ?_, hley⟩ <;> rw [← hrec]
  · unfold CurveCalculator.swap_base_output at h
    simp only [Option.bind_eq_bind, Option.bind_eq_some, Option.pure_def,
      Option.some.injEq, Bool.false_eq_true, reduceIte, Prod.mk.injEq, Prod.exists] at h
    obtain ⟨a0, b0, ⟨rfl, rfl⟩, i1, hi1, a2, ha2, a3, ha3, a4, a5, b, ⟨rfl, rfl, rfl⟩,
      a6, h6, a7, h7, niv, hniv, nov, hnov, hrec⟩ := h
    obtain rfl := cadd128_some hniv
    obtain ⟨hley, rfl⟩ := csub_some hnov
    refine ⟨dy, i1, hi1, ?_, ?_, hley⟩ <;> rw [← hrec]

theorem swap_base_input_product_le {a x y tr cr pr fr : Nat} {flag : Bool} {r : SwapResult}
    (h : CurveCalculator.swap_base_input a x y tr cr pr fr flag = some r) :
    x * y ≤ r.new_input_vault_amount * r.new_output_vault_amount := by
  obtain ⟨less, out, hcurve, hniv, hnov, -⟩ := swap_base_input_reserves h
  obtain ⟨hle, -⟩ := swap_base_input_without_fees_invariant hcurve
  rw [hniv, hnov]; exact hle

theorem swap_base_output_product_le {dy x y tr cr pr fr : Nat} {flag : Bool} {r : SwapResult}
    (h : CurveCalculator.swap_base_output dy x y tr cr pr fr flag = some r) :
    x * y ≤ r.new_input_vault_amount * r.new_output_vault_amount := by
  obtain ⟨actual, inAmt, hcurve, hniv, hnov, -⟩ := swap_base_output_reserves h
  obtain ⟨hle, -⟩ := swap_base_output_without_fees_invariant hcurve
  rw [hniv, hnov]; exact hle

theorem applyTrade_product_le {p q : Nat × Nat} {t : TradeReq}
    (h : applyTrade p t = some q) : p.1 * p.2 ≤ q.1 * q.2 := by
  cases t <;>
  · unfold applyTrade at h
    simp only [Option.bind_eq_bind, Option.bind_eq_some, Option.pure_def,
      Option.some.injEq] at h
    obtain ⟨r, hr, hq⟩ := h
    rw [← hq]
    first
    | exact swap_base_input_product_le hr
    | exact swap_base_output_product_le hr

theorem applyTrades_product_le {p q : Nat × Nat} {ts : List TradeReq}
    (h : applyTrades p ts = some q) : p.1 * p.2 ≤ q.1 * q.2 := by
  induction ts generalizing p with
  | nil => unfold applyTrades at h; simp_all
  | cons t ts ih =>
      unfold applyTrades at h
      simp only [Option.bind_eq_bind, Option.bind_eq_some] at h
      obtain ⟨m, hm, hrest⟩ := h
      exact Nat.le_trans (applyTrade_product_le hm) (ih hrest)

/-! Bounds on the fee computations, used for the pricing roundtrip analysis. -/

/-- The recovered pre-fee amount is at most any `m` with `p * D ≤ (D - rate) * m`. -/
theorem calculate_pre_fee_amount_le {p rate w m : Nat}
    (h : Fees.calculate_pre_fee_amount p rate = some w)
    (hm : p * FEE_RATE_DENOMINATOR_VALUE ≤ (FEE_RATE_DENOMINATOR_VALUE - rate) * m) :
    w ≤ m := by
  unfold Fees.calculate_pre_fee_amount at h
  simp only [Option.bind_eq_bind, Option.bind_eq_some] at h
  obtain ⟨n, hn, d, hd, hq⟩ := h
  obtain rfl := cmul128_some hn
  obtain ⟨hle, rfl⟩ := csub_some hd
  obtain ⟨hdne, rfl⟩ := checkedCeilDiv_some hq
  exact (ceilDiv_le_iff hdne).mpr hm

/-- A successful pre-fee recovery implies the rate is strictly below the denominator. -/
theorem calculate_pre_fee_amount_rate_lt {p rate w : Nat}
    (h : Fees.calculate_pre_fee_amount p rate = some w) :
    rate < FEE_RATE_DENOMINATOR_VALUE := by
  unfold Fees.calculate_pre_fee_amount at h
  simp only [Option.bind_eq_bind, Option.bind_eq_some] at h
  obtain ⟨n, hn, d, hd, hq⟩ := h
  obtain ⟨hle, rfl⟩ := csub_some hd
  obtain ⟨hdne, -⟩ := checkedCeilDiv_some hq
  omega

/-- The up-rounded trading fee covers the exact proportional fee. -/
theorem trading_fee_lower {a rate tf : Nat} (h : Fees.trading_fee a rate = some tf) :
    a * rate ≤ tf * FEE_RATE_DENOMINATOR_VALUE := by
  unfold Fees.trading_fee at h
  simp only [Option.bind_eq_bind, Option.bind_eq_some] at h
  obtain ⟨n, hn, hq⟩ := h
  obtain rfl := cmul128_some hn
  obtain ⟨hdne, rfl⟩ := checkedCeilDiv_some hq
  have h0 := le_mul_ceilDiv (a * rate) FEE_RATE_DENOMINATOR_VALUE hdne
  exact h0.trans (Nat.le_of_eq (Nat.mul_comm _ _))

/-- The up-rounded creator fee covers the exact proportional fee. -/
theorem creator_fee_lower {a rate cf : Nat} (h : Fees.creator_fee a rate = some cf) :
    a * rate ≤ cf * FEE_RATE_DENOMINATOR_VALUE := by
  unfold Fees.creator_fee at h
  simp only [Option.bind_eq_bind, Option.bind_eq_some] at h
  obtain ⟨n, hn, hq⟩ := h
  obtain rfl := cmul128_some hn
  obtain ⟨hdne, rfl⟩ := checkedCeilDiv_some hq
  have h0 := le_mul_ceilDiv (a * rate) FEE_RATE_DENOMINATOR_VALUE hdne
  exact h0.trans (Nat.le_of_eq (Nat.mul_comm _ _))

/-- The exact-output curve, fed any output no larger than what the exact-input
curve produced from `dx`, asks for an input of at most `dx`. -/
theorem curve_roundtrip_le {dx x y out dy inAmt : Nat}
    (hg : ConstantProductCurve.swap_base_input_without_fees dx x y = some out)
    (hdy : dy ≤ out)
    (hh : ConstantProductCurve.swap_base_output_without_fees dy x y = some inAmt) :
    inAmt ≤ dx := by
  unfold ConstantProductCurve.swap_base_input_without_fees at hg
  simp only [Option.bind_eq_bind, Option.bind_eq_some] at hg
  obtain ⟨n, hn, d, hd, hq⟩ := hg
  obtain rfl := cmul128_some hn
  obtain rfl := cadd128_some hd
  obtain ⟨hdne, rfl⟩ := cdiv_some hq
  unfold ConstantProductCurve.swap_base_output_without_fees at hh
  simp only [Option.bind_eq_bind, Option.bind_eq_some] at hh
  obtain ⟨n2, hn2, d2, hd2, hq2⟩ := hh
  obtain rfl := cmul128_some hn2
  obtain ⟨hley, rfl⟩ := csub_some hd2
  obtain ⟨hd2ne, rfl⟩ := checkedCeilDiv_some hq2
  set out := dx * y / (x + dx) with hout
  -- out is bounded by y
  have hout_le_y : out ≤ y := by
    calc out ≤ (x + dx) * y / (x + dx) :=
          Nat.div_le_div_right (Nat.mul_le_mul_right _ (Nat.le_add_left _ _))
    _ = y := Nat.mul_div_cancel_left _ (Nat.pos_of_ne_zero hdne)
  -- the raw curve bound: (x + dx) * out ≤ dx * y
  have hmul : out * (x + dx) ≤ dx * y := Nat.div_mul_le_self _ _
  -- hence x * out ≤ dx * (y - out)
  have hxout : x * out ≤ dx * (y - out) := by
    have h1 : out * x + out * dx ≤ dx * y := by
      have : out * (x + dx) = out * x + out * dx := Nat.mul_add _ _ _
      omega
    have h2 : dx * (y - out) = dx * y - dx * out := Nat.mul_sub dx y out
    have h3 : out * dx = dx * out := Nat.mul_comm _ _
    have h4 : out * x = x * out := Nat.mul_comm _ _
    omega
  -- chain: x * dy ≤ x * out ≤ dx * (y - out) ≤ dx * (y - dy)
  have hchain : x * dy ≤ (y - dy) * dx := by
    have h1 : x * dy ≤ x * out := Nat.mul_le_mul_left x hdy
    have h2 : dx * (y - out) ≤ dx * (y - dy) :=
      Nat.mul_le_mul_left dx (Nat.sub_le_sub_left hdy y)
    have h3 : dx * (y - dy) = (y - dy) * dx := Nat.mul_comm _ _
    omega
  exact (ceilDiv_le_iff hd2ne).mpr hchain


/-- C7 (amended): pricing an exact-input trade and then re-pricing its output
as an exact-output request never asks for more than the original input. -/
theorem roundtrip_input_le_original {a x y tr cr pr fr : Nat} {flag : Bool}
    {r r2 : SwapResult}
    (h1 : CurveCalculator.swap_base_input a x y tr cr pr fr flag = some r)
    (h2 : CurveCalculator.swap_base_output r.output_amount x y tr cr pr fr flag = some r2) :
    r2.input_amount ≤ a := by
  cases flag
  · -- creator fee charged on the output side
    unfold CurveCalculator.swap_base_input at h1
    simp only [Option.bind_eq_bind, Option.bind_eq_some, Option.pure_def,
      Option.some.injEq, Bool.false_eq_true, if_false, if_true, reduceIte,
      Prod.mk.injEq, Prod.exists, exists_and_left, exists_and_right] at h1
    obtain ⟨tf, htf, less, hless, pf, ⟨hpf, -⟩, ff, hff, outS, houtS, rest⟩ := h1
    obtain ⟨out, hout, cf2, hcf2, o3, ho3, o4, b4, ⟨h43, hb4⟩, niv, hniv, nov, hnov, hrec⟩ := rest
    subst hpf
    subst h43
    subst hrec
    unfold CurveCalculator.swap_base_output at h2
    simp only [Option.bind_eq_bind, Option.bind_eq_some, Option.pure_def,
      Option.some.injEq, Bool.false_eq_true, reduceIte, Prod.mk.injEq, Prod.exists] at h2
    obtain ⟨w, hw, w1, b1, ⟨rfl, rfl⟩, i, hi, iwf, hiwf, a3, a4, b2, ⟨rfl, rfl, rfl⟩,
      p5, hp5, f6, hf6, niv2, hniv2, nov2, hnov2, hrec2⟩ := h2
    subst hrec2
    obtain ⟨hcfle, rfl⟩ := csub_some ho3
    obtain ⟨htfle, rfl⟩ := csub_some hless
    have hcrlt := calculate_pre_fee_amount_rate_lt hw
    have hcflow := creator_fee_lower hcf2
    have htflow := trading_fee_lower htf
    have hwle : w ≤ out := by
      apply calculate_pre_fee_amount_le hw
      have e1 : (out - cf2) * FEE_RATE_DENOMINATOR_VALUE
          = out * FEE_RATE_DENOMINATOR_VALUE - cf2 * FEE_RATE_DENOMINATOR_VALUE :=
        Nat.sub_mul _ _ _
      have e2 : out * (FEE_RATE_DENOMINATOR_VALUE - cr)
          = out * FEE_RATE_DENOMINATOR_VALUE - out * cr := Nat.mul_sub _ _ _
      have e3 : (FEE_RATE_DENOMINATOR_VALUE - cr) * out
          = out * (FEE_RATE_DENOMINATOR_VALUE - cr) := Nat.mul_comm _ _
      omega
    have hile : i ≤ a - tf := curve_roundtrip_le hout hwle hi
    show iwf ≤ a
    apply calculate_pre_fee_amount_le hiwf
    have e1 : (a - tf) * FEE_RATE_DENOMINATOR_VALUE
        = a * FEE_RATE_DENOMINATOR_VALUE - tf * FEE_RATE_DENOMINATOR_VALUE :=
      Nat.sub_mul _ _ _
    have e2 : a * (FEE_RATE_DENOMINATOR_VALUE - tr)
        = a * FEE_RATE_DENOMINATOR_VALUE - a * tr := Nat.mul_sub _ _ _
    have e3 : (FEE_RATE_DENOMINATOR_VALUE - tr) * a
        = a * (FEE_RATE_DENOMINATOR_VALUE - tr) := Nat.mul_comm _ _
    have hi5 : i * FEE_RATE_DENOMINATOR_VALUE ≤ (a - tf) * FEE_RATE_DENOMINATOR_VALUE :=
      Nat.mul_le_mul_right _ hile
    omega
  · -- creator fee charged on the input side
    unfold CurveCalculator.swap_base_input at h1
    simp only [Option.bind_eq_bind, Option.bind_eq_some, Option.pure_def,
      Option.some.injEq, Bool.false_eq_true, if_false, if_true, reduceIte,
      Prod.mk.injEq, Prod.exists, exists_and_left, exists_and_right] at h1
    obtain ⟨tf, htf, cf, hcf, t1, ht1, lf, hlf, lf2, cf2a, ⟨⟨hlf2, hcf2a⟩, rest⟩⟩ := h1
    obtain ⟨pfv, hpfv, ffv, hffv, out, hout, o4, b4, ⟨h43, hb4⟩, niv, hniv, nov, hnov, hrec⟩ := rest
    subst hlf2
    subst hcf2a
    subst h43
    subst hrec
    unfold CurveCalculator.swap_base_output at h2
    simp only [Option.bind_eq_bind, Option.bind_eq_some, Option.pure_def,
      Option.some.injEq, Bool.false_eq_true, reduceIte, Prod.mk.injEq, Prod.exists] at h2
    obtain ⟨a0, b0, ⟨rfl, rfl⟩, i1, hi1, a2, ha2, a3, ha3, a4, a5, b, ⟨rfl, rfl, rfl⟩,
      a6, h6, a7, h7, niv2, hniv2, nov2, hnov2, hrec2⟩ := h2
    subst hrec2
    obtain ⟨htfle, rfl⟩ := csub_some ht1
    obtain ⟨hcfle, rfl⟩ := csub_some hlf
    have hrate := calculate_pre_fee_amount_rate_lt ha2
    have htflow := trading_fee_lower htf
    have hcflow := creator_fee_lower hcf
    have hile : i1 ≤ a - tf - cf := curve_roundtrip_le hout (Nat.le_refl out) hi1
    show a2 ≤ a
    apply calculate_pre_fee_amount_le ha2
    have e1 : (a - tf - cf) * FEE_RATE_DENOMINATOR_VALUE
        = a * FEE_RATE_DENOMINATOR_VALUE - tf * FEE_RATE_DENOMINATOR_VALUE
          - cf * FEE_RATE_DENOMINATOR_VALUE := by
      rw [Nat.sub_mul, Nat.sub_mul]
    have e2 : a * (FEE_RATE_DENOMINATOR_VALUE - (tr + cr))
        = a * FEE_RATE_DENOMINATOR_VALUE - a * (tr + cr) := Nat.mul_sub _ _ _
    have e25 : a * (tr + cr) = a * tr + a * cr := Nat.mul_add _ _ _
    have e3 : (FEE_RATE_DENOMINATOR_VALUE - (tr + cr)) * a
        = a * (FEE_RATE_DENOMINATOR_VALUE - (tr + cr)) := Nat.mul_comm _ _
    have hi5 : i1 * FEE_RATE_DENOMINATOR_VALUE ≤ (a - tf - cf) * FEE_RATE_DENOMINATOR_VALUE :=
      Nat.mul_le_mul_right _ hile
    omega

/-- Witness for the roundtrip bound: at reserves (1000000, 1000000), input 450,
trade rate 2500, the exact-input pricing outputs 447 and re-pricing 447 as an
exact output requires input 450 ≤ 450. -/
theorem roundtrip_input_le_original_witness :
    (450 : Nat) ≤ 450 :=
  @roundtrip_input_le_original 450 1000000 1000000 2500 0 120000 40000 false
    { new_input_vault_amount := 1000448, new_output_vault_amount := 999553,
      input_amount := 450, output_amount := 447, trade_fee := 2,
      protocol_fee := 0, fund_fee := 0, creator_fee := 0 }
    { new_input_vault_amount := 1000448, new_output_vault_amount := 999553,
      input_amount := 450, output_amount := 447, trade_fee := 2,
      protocol_fee := 0, fund_fee := 0, creator_fee := 0 }
    (by decide) (by decide)

/-- C7 counterexample: at reserves (1000, 10) with input amount 111 and zero
fee rates, the exact-input pricing outputs 0, and re-pricing that output as an
exact-output request requires input 0 — the roundtrip misses the original
input amount by 111, far more than the claimed 1-unit tolerance. -/
theorem roundtrip_counterexample :
    (CurveCalculator.swap_base_input 111 1000 10 0 0 0 0 false).map
        (fun r => r.output_amount) = some 0 ∧
    (CurveCalculator.swap_base_output 0 1000 10 0 0 0 0 false).map
        (fun r => r.input_amount) = some 0 ∧
    1 < 111 - 0 := by decide

/-- C6: for every reserve pair (x, y) with x, y ≥ 1, any successful
exact-input or exact-output pricing produces new reserves satisfying
`new_input_vault_amount * new_output_vault_amount ≥ x * y`, and hence the
constant product is non-decreasing across any sequence of priced swaps
applied to a simulated reserve pair. -/
theorem constant_product_non_decreasing :
    (∀ a x y tr cr pr fr (flag : Bool) (r : SwapResult), 1 ≤ x → 1 ≤ y →
        CurveCalculator.swap_base_input a x y tr cr pr fr flag = some r →
        x * y ≤ r.new_input_vault_amount * r.new_output_vault_amount) ∧
    (∀ dy x y tr cr pr fr (flag : Bool) (r : SwapResult), 1 ≤ x → 1 ≤ y →
        CurveCalculator.swap_base_output dy x y tr cr pr fr flag = some r →
        x * y ≤ r.new_input_vault_amount * r.new_output_vault_amount) ∧
    (∀ (x y : Nat) (ts : List TradeReq) (q : Nat × Nat),
        applyTrades (x, y) ts = some q → x * y ≤ q.1 * q.2) := by
  refine ⟨?_, ?_, ?_⟩
  · intro a x y tr cr pr fr flag r _ _ h
    exact swap_base_input_product_le h
  · intro dy x y tr cr pr fr flag r _ _ h
    exact swap_base_output_product_le h
  · intro x y ts q h
    exact applyTrades_product_le h

/-- Witness for C6 at reserves (1000000, 1000000), input 450, trade rate 2500:
the priced reserves (1000448, 999553) have product at least 10^12. -/
theorem constant_product_non_decreasing_witness :
    (1000000 : Nat) * 1000000 ≤ 1000448 * 999553 :=
  constant_product_non_decreasing.1 450 1000000 1000000 2500 0 120000 40000 false
    { new_input_vault_amount := 1000448, new_output_vault_amount := 999553,
      input_amount := 450, output_amount := 447, trade_fee := 2,
      protocol_fee := 0, fund_fee := 0, creator_fee := 0 }
    (by decide) (by decide) (by decide)

/-! Inversion lemmas for instruction results. -/

theorem except_bind_ok {ε α β : Type} {x : Except ε α} {f : α → Except ε β} {b : β} :
    x >>= f = .ok b ↔ ∃ a, x = .ok a ∧ f a = .ok b := by
  cases x <;> simp [Bind.bind, Except.bind]

theorem liftOpt_ok {α : Type} {o : Option α} {e : ErrorCode} {a : α} :
    liftOpt e o = .ok a ↔ o = some a := by
  cases o <;> simp [liftOpt]

theorem requireB_ok {b : Bool} {e : ErrorCode} {u : Unit} :
    requireB b e = .ok u ↔ b = true := by
  cases b <;> simp [requireB]

/-- C8: in the purchase operation, with the curve-priced requirement P, the
bonus branch applies when the pre-increment stake count plus one is at most
the bonus ceiling and charges `P - floor(P * bonus_rate / 1e6)`; otherwise
the charge is `floor(P * treasury_balance / initial_allocation)`. -/
theorem purchase_pricing_spec (cfg : GlobalConfig) (count vault P : Nat) :
    (count + 1 ≤ cfg.max_stake_count_to_get_bonus →
      P * cfg.bonus_rate ≤ U64MAX →
      P * cfg.bonus_rate / FEE_RATE_DENOMINATOR_VALUE ≤ P →
      purchase_pricing cfg count vault P
        = some (P - P * cfg.bonus_rate / FEE_RATE_DENOMINATOR_VALUE)) ∧
    (cfg.max_stake_count_to_get_bonus < count + 1 →
      cfg.initial_lxr_allocation_vault ≠ 0 →
      P * vault ≤ U128MAX →
      P * vault / cfg.initial_lxr_allocation_vault < 2 ^ 64 →
      purchase_pricing cfg count vault P
        = some (P * vault / cfg.initial_lxr_allocation_vault)) := by
  constructor
  · intro hcnt hmul hle
    unfold purchase_pricing
    rw [if_pos hcnt]
    unfold cmul64 cdiv csub
    rw [if_pos hmul]
    simp only [Option.bind_eq_bind, Option.some_bind]
    rw [if_neg (by decide : ¬ (FEE_RATE_DENOMINATOR_VALUE = 0))]
    simp only [Option.some_bind]
    rw [if_pos hle]
  · intro hcnt hinit hmul hfit
    unfold purchase_pricing
    rw [if_neg (by omega)]
    unfold cmul128 cdiv
    rw [if_pos hmul]
    simp only [Option.bind_eq_bind, Option.some_bind]
    rw [if_neg hinit]
    simp only [Option.some_bind, u64cast]
    rw [Nat.mod_eq_of_lt hfit]

/-- Witness for C8: with a 10% bonus rate and ceiling 10, the boundary stake
(count 9, so count+1 = 10) is charged 900 of a 1000 requirement, and the
post-bonus stake (count 10) with treasury 500 of 1000 is charged 500. -/
theorem purchase_pricing_spec_witness :
    purchase_pricing cfgA 9 500 1000 = some 900 ∧
    purchase_pricing cfgA 10 500 1000 = some 500 :=
  ⟨(purchase_pricing_spec cfgA 9 500 1000).1 (by decide) (by decide) (by decide),
   (purchase_pricing_spec cfgA 10 500 1000).2 (by decide) (by decide) (by decide) (by decide)⟩

/-- C2: the purchase operation, run for a user record that already exists
(owner 7, 100 staked, checkpoint 0) while the global token index is
2 * PRECISION^2, increases the staked amount (100 → 9216) WITHOUT first
accruing the owed pending rewards: the pending balance stays 0 and the
checkpoint stays 0, although `staked * (index - checkpoint) / PRECISION /
PRECISION = 200` LXR were owed at that moment. -/
theorem purchase_skips_accrual :
    (purchase cfgA siIndexed usiStaked obsP 10000 100000).toOption.map
        (fun p => (p.2.lxr_rewards_pending, p.2.lxr_reward_per_token_completed,
                   p.2.total_staked_sol))
      = some (0, 0, 9216) ∧
    usiStaked.total_staked_sol = 100 ∧
    usiStaked.lxr_rewards_pending = 0 ∧
    usiStaked.total_staked_sol
        * (siIndexed.reward_per_token_lxr_stored - usiStaked.lxr_reward_per_token_completed)
        / PRECISION / PRECISION = 200 := by
  decide

/-- C3: the manual-purchase accrual site divides by PRECISION only once: for
a user with 100 staked and an index delta of 2 * PRECISION^2 it credits
200000000000 pending LXR, where the double division used by the redeem and
blacklist sites yields 200. -/
theorem manual_purchase_single_division :
    (manual_purchase siIndexed usiStaked obsM 40 300).toOption.map
        (fun p => p.2.lxr_rewards_pending) = some 200000000000 ∧
    usiStaked.total_staked_sol
        * (siIndexed.reward_per_token_lxr_stored - usiStaked.lxr_reward_per_token_completed)
        / PRECISION / PRECISION = 200 ∧
    (200000000000 : Nat) ≠ 200 := by
  decide

/-- C4 counterexample: manual purchase observes a custodial balance of 500
above the tracked 0 with 1000 staked, records the delta and the new balance,
but leaves the SOL reward index at 0 instead of incrementing it by
`500 * PRECISION / 1000 = 500000000`. -/
theorem manual_purchase_observe_counterexample :
    (manual_purchase siIndexed usiStaked obsM 40 300).toOption.map
        (fun p => (p.1.total_sol_rewards_accrued, p.1.last_tracked_sol_balance,
                   p.1.reward_per_token_sol_stored))
      = some (500, 800, 0) ∧
    siIndexed.reward_per_token_sol_stored = 0 ∧
    (0 : Nat) ≠ 500 * PRECISION / siIndexed.total_staked_sol := by
  decide

/-- C9: with redemption globally disabled (`cfgA.redeem_enabled = false`),
the redeem operation nevertheless succeeds and mutates both the aggregate
and the user record (200 LXR claimed), because no constraint or statement of
redeem.rs reads the flag — unlike purchase.rs, whose accounts context fails
with PurchaseDisabled. -/
theorem redeem_ignores_disabled_flag :
    cfgA.redeem_enabled = false ∧
    (redeem cfgA siIndexed usiStaked 50).toOption.map
        (fun p => (p.1.total_lxr_claimed, p.2.1.total_lxr_claimed,
                   p.2.1.lxr_reward_per_token_completed))
      = some (200, 200, 2000000000000000000) ∧
    siIndexed.total_lxr_claimed = 0 ∧
    (purchase { cfgA with purchase_enabled := false } siIndexed usiStaked obsP 10000 100000
      = .error .PurchaseDisabled) := by
  decide

/-- C10 counterexample: blacklisting a user whose stored pending balance is 5
while the index delta is zero increases the forfeited counter by 5 — the
previously stored pending balance — although the newly computed pending
amount `staked * (index - checkpoint) / PRECISION / PRECISION` is 0. -/
theorem blacklist_counterexample :
    (blacklist siGenesis usiPend usiGenesis 9).toOption.map
        (fun p => p.1.total_lxr_forfeited) = some 5 ∧
    usiPend.total_staked_sol
        * (siGenesis.reward_per_token_lxr_stored - usiPend.lxr_reward_per_token_completed)
        / PRECISION / PRECISION = 0 ∧
    usiPend.total_lxr_forfeited = 0 ∧
    (5 : Nat) ≠ 0 := by
  decide

/-- C1 counterexample: starting from the Idle state `siB1`, the first buyback
call performs the request transition (the flag becomes set), and the second
buyback call SUCCEEDS — it performs the settlement instead of failing with
the StateConflict error BuybackAlreadyRequested. -/
theorem buyback_twice_counterexample :
    buyback cfgA siB1 obsR1 = .ok siR1 ∧
    siR1.buyback_requested = true ∧
    (buyback cfgA siR1 obsS1).toOption.map (fun s => (s.buyback_requested, s.buyback_count))
      = some (false, 1) := by
  decide

/-- C4 (amended): the observation blocks of purchase.rs (266-277) and
buyback.rs (476-496) — shared here as `accrueSolRewards` — add the balance
delta to the cumulative SOL rewards, set the tracked balance to the observed
balance and increment the SOL index by exactly `delta * PRECISION /
total_staked_sol`; the manual-purchase block (161-167) performs only the
first two updates and leaves the index unchanged. -/
theorem observe_updates :
    (∀ si lam si', si.last_tracked_sol_balance < lam → si.total_staked_sol ≠ 0 →
      accrueSolRewards si lam = some si' →
      si' = { si with
        total_sol_rewards_accrued :=
          si.total_sol_rewards_accrued + (lam - si.last_tracked_sol_balance)
        last_tracked_sol_balance := lam
        reward_per_token_sol_stored :=
          si.reward_per_token_sol_stored
            + (lam - si.last_tracked_sol_balance) * PRECISION / si.total_staked_sol }) ∧
    (∀ si lam si', si.last_tracked_sol_balance < lam →
      manualObserve si lam = some si' →
      si' = { si with
        total_sol_rewards_accrued :=
          si.total_sol_rewards_accrued + (lam - si.last_tracked_sol_balance)
        last_tracked_sol_balance := lam }) := by
  constructor
  · intro si lam si' hlt hstk h
    unfold accrueSolRewards at h
    rw [if_pos hlt] at h
    simp only [Option.bind_eq_bind, Option.bind_eq_some, Option.some.injEq] at h
    obtain ⟨d, hd, acc, hacc, num, hnum, inc, hinc, idx, hidx, hfin⟩ := h
    obtain ⟨-, rfl⟩ := csub_some hd
    obtain rfl := cadd64_some hacc
    obtain rfl := cmul128_some hnum
    obtain ⟨-, rfl⟩ := cdiv_some hinc
    obtain rfl := cadd128_some hidx
    exact hfin.symm
  · intro si lam si' hlt h
    unfold manualObserve at h
    rw [if_pos hlt] at h
    simp only [Option.bind_eq_bind, Option.bind_eq_some, Option.some.injEq] at h
    obtain ⟨d, hd, acc, hacc, hfin⟩ := h
    obtain ⟨-, rfl⟩ := csub_some hd
    obtain rfl := cadd64_some hacc
    exact hfin.symm

/-- Witness for C4 at the state `siB1` (1000 staked, tracked balance 0) and
an observed balance of 500: the full block advances the index to 500000000,
the manual block leaves it at 0. -/
theorem observe_updates_witness :
    (siObs1 = { siB1 with
        total_sol_rewards_accrued :=
          siB1.total_sol_rewards_accrued + (500 - siB1.last_tracked_sol_balance)
        last_tracked_sol_balance := 500
        reward_per_token_sol_stored := siB1.reward_per_token_sol_stored
          + (500 - siB1.last_tracked_sol_balance) * PRECISION / siB1.total_staked_sol }) ∧
    (siObsM = { siB1 with
        total_sol_rewards_accrued :=
          siB1.total_sol_rewards_accrued + (500 - siB1.last_tracked_sol_balance)
        last_tracked_sol_balance := 500 }) :=
  ⟨observe_updates.1 siB1 500 siObs1 (by decide) (by decide) (by decide),
   observe_updates.2 siB1 500 siObsM (by decide) (by decide)⟩

/-- C10 (amended): blacklist leaves the claimed counter of the target
unchanged, increases its forfeited counter by the ENTIRE pending balance at
blacklisting time — the previously stored pending plus the newly computed
`staked * (index - checkpoint) / PRECISION / PRECISION` — zeroes the staked,
pending and base-holdings fields, and adds the moved staked amount to the
blacklisted counter. -/
theorem blacklist_spec : ∀ si usi admin_usi owner u' a',
    blacklist si usi admin_usi owner = .ok (u', a') →
    u'.total_lxr_claimed = usi.total_lxr_claimed ∧
    u'.total_lxr_forfeited = usi.total_lxr_forfeited + (usi.lxr_rewards_pending +
      u64cast (usi.total_staked_sol
        * (si.reward_per_token_lxr_stored - usi.lxr_reward_per_token_completed)
        / PRECISION / PRECISION)) ∧
    u'.total_staked_sol = 0 ∧
    u'.lxr_rewards_pending = 0 ∧
    u'.base_lxr_holdings = 0 ∧
    u'.blacklisted_sol = usi.blacklisted_sol + usi.total_staked_sol := by
  intro si usi admin_usi owner u' a' h
  unfold blacklist at h
  simp only [except_bind_ok, liftOpt_ok, pure, Except.pure, Except.ok.injEq,
    Prod.mk.injEq] at h
  obtain ⟨dU, hdU, nU, hnU, q1, hq1, q2, hq2, up, hup, uf, huf, ub, hub,
    dA, hdA, nA, hnA, p1, hp1, p2, hp2, ap, hap, astk, hastk, ap2, hap2, hu, ha⟩ := h
  obtain ⟨-, rfl⟩ := csub_some hdU
  obtain rfl := cmul128_some hnU
  obtain ⟨-, rfl⟩ := cdiv_some hq1
  obtain ⟨-, rfl⟩ := cdiv_some hq2
  obtain rfl := cadd64_some hup
  obtain rfl := cadd64_some huf
  obtain rfl := cadd64_some hub
  refine ⟨?_, ?_, ?_, ?_, ?_, ?_⟩ <;> rw [← hu]

/-- Witness for C10 at the concrete run `blacklist siGenesis usiPend
usiGenesis 9`: the forfeited counter rises by exactly the stored pending 5. -/
theorem blacklist_spec_witness :
    u1B.total_lxr_forfeited = usiPend.total_lxr_forfeited + (usiPend.lxr_rewards_pending +
      u64cast (usiPend.total_staked_sol
        * (siGenesis.reward_per_token_lxr_stored - usiPend.lxr_reward_per_token_completed)
        / PRECISION / PRECISION)) ∧
    u1B.total_staked_sol = 0 :=
  ⟨(blacklist_spec siGenesis usiPend usiGenesis 9 u1B a1B (by decide)).2.1,
   (blacklist_spec siGenesis usiPend usiGenesis 9 u1B a1B (by decide)).2.2.1⟩

/-- A bound instruction step avoids an error that neither side produces. -/
theorem bind_ne_error {α β : Type} {x : Except ErrorCode α} {f : α → Except ErrorCode β}
    {X : ErrorCode} (hx : x ≠ .error X) (hf : ∀ a, f a ≠ .error X) :
    x >>= f ≠ .error X := by
  cases x with
  | error e =>
      intro h
      simp only [Bind.bind, Except.bind] at h
      injection h with h1
      exact hx (by rw [h1])
  | ok a =>
      intro h
      simp only [Bind.bind, Except.bind] at h
      exact hf a h

theorem liftOpt_ne_error {α : Type} {o : Option α} {e X : ErrorCode} (h : e ≠ X) :
    liftOpt e o ≠ .error X := by
  cases o with
  | none => simp only [liftOpt, ne_eq, Except.error.injEq]; exact h
  | some a => simp [liftOpt]

theorem requireB_ne_error {b : Bool} {e X : ErrorCode} (h : e ≠ X) :
    requireB b e ≠ .error X := by
  cases b with
  | false => simp only [requireB, Bool.false_eq_true, if_false, ne_eq, Except.error.injEq]; exact h
  | true => simp [requireB]

theorem requireB_true_ne_error {b : Bool} {e X : ErrorCode} (h : b = true) :
    requireB b e ≠ .error X := by
  subst h; simp [requireB]

theorem pure_ne_error {α : Type} {a : α} {X : ErrorCode} :
    (pure a : Except ErrorCode α) ≠ .error X := by
  simp [pure, Except.pure]

/-- A successful request transition always sets the in-progress flag. -/
theorem buybackRequest_sets_flag {cfg si obs si'}
    (h : buybackRequest cfg si obs = .ok si') : si'.buyback_requested = true := by
  unfold buybackRequest at h
  simp only [except_bind_ok, liftOpt_ok, requireB_ok, pure, Except.pure,
    Except.ok.injEq] at h
  obtain ⟨-, -, -, -, si1, hsi1, av, hav, -, -, hfin⟩ := h
  rw [← hfin]

/-- C1 (amended): the buyback entry point never fails with either
StateConflict error — with the flag set it performs the settlement branch and
with the flag clear the request branch, so the BuybackAlreadyRequested and
NoBuybackRequested guards are vacuously satisfied; in particular a second
call after an Idle-to-Requested transition performs the settlement instead of
failing. -/
theorem buyback_no_stateconflict :
    (∀ cfg si obs, buyback cfg si obs ≠ .error .BuybackAlreadyRequested) ∧
    (∀ cfg si obs, buyback cfg si obs ≠ .error .NoBuybackRequested) ∧
    (∀ cfg si obs obs2 si1, si.buyback_requested = false →
      buyback cfg si obs = .ok si1 →
      buyback cfg si1 obs2 = buybackSettle cfg si1 obs2) := by
  refine ⟨?_, ?_, ?_⟩
  · intro cfg si obs
    unfold buyback
    rcases hflag : si.buyback_requested with - | -
    all_goals simp only [Bool.false_eq_true, if_false, if_true]
    · unfold buybackRequest
      repeat
        first
        | exact pure_ne_error
        | refine bind_ne_error (liftOpt_ne_error (by decide)) (fun _ => ?_)
        | refine bind_ne_error (requireB_ne_error (by decide)) (fun _ => ?_)
        | refine bind_ne_error (requireB_true_ne_error (by simp [hflag])) (fun _ => ?_)
    · unfold buybackSettle
      repeat
        first
        | exact pure_ne_error
        | refine bind_ne_error (liftOpt_ne_error (by decide)) (fun _ => ?_)
        | refine bind_ne_error (requireB_ne_error (by decide)) (fun _ => ?_)
        | refine bind_ne_error (requireB_true_ne_error hflag) (fun _ => ?_)
  · intro cfg si obs
    unfold buyback
    rcases hflag : si.buyback_requested with - | -
    all_goals simp only [Bool.false_eq_true, if_false, if_true]
    · unfold buybackRequest
      repeat
        first
        | exact pure_ne_error
        | refine bind_ne_error (liftOpt_ne_error (by decide)) (fun _ => ?_)
        | refine bind_ne_error (requireB_ne_error (by decide)) (fun _ => ?_)
        | refine bind_ne_error (requireB_true_ne_error (by simp [hflag])) (fun _ => ?_)
    · unfold buybackSettle
      repeat
        first
        | exact pure_ne_error
        | refine bind_ne_error (liftOpt_ne_error (by decide)) (fun _ => ?_)
        | refine bind_ne_error (requireB_ne_error (by decide)) (fun _ => ?_)
        | refine bind_ne_error (requireB_true_ne_error hflag) (fun _ => ?_)
  · intro cfg si obs obs2 si1 hflag hok
    unfold buyback at hok ⊢
    rw [hflag] at hok
    simp only [Bool.false_eq_true, if_false] at hok
    rw [buybackRequest_sets_flag hok]
    simp

/-- Witness for C1: the concrete second call from the Requested state `siR1`
runs the settlement branch. -/
theorem buyback_no_stateconflict_witness :
    buyback cfgA siR1 obsS1 = buybackSettle cfgA siR1 obsS1 :=
  buyback_no_stateconflict.2.2 cfgA siB1 obsR1 obsS1 siR1 (by decide) (by decide)

/-- The shared observation block can only increase the cumulative rewards and
never touches the buyback spend counter. -/
theorem accrueSolRewards_budget {si : StakeInfo} {lam : Nat} {si' : StakeInfo}
    (h : accrueSolRewards si lam = some si') :
    si.total_sol_rewards_accrued ≤ si'.total_sol_rewards_accrued ∧
    si'.total_sol_used_for_buyback = si.total_sol_used_for_buyback := by
  unfold accrueSolRewards at h
  split at h
  · simp only [Option.bind_eq_bind, Option.bind_eq_some, Option.some.injEq] at h
    obtain ⟨d, hd, acc, hacc, num, hnum, inc, hinc, idx, hidx, hfin⟩ := h
    obtain rfl := cadd64_some hacc
    rw [← hfin]
    exact ⟨Nat.le_add_right _ _, rfl⟩
  · simp only [Option.some.injEq] at h
    rw [← h]
    exact ⟨Nat.le_refl _, rfl⟩

/-- The manual-purchase observation block likewise. -/
theorem manualObserve_budget {si : StakeInfo} {lam : Nat} {si' : StakeInfo}
    (h : manualObserve si lam = some si') :
    si.total_sol_rewards_accrued ≤ si'.total_sol_rewards_accrued ∧
    si'.total_sol_used_for_buyback = si.total_sol_used_for_buyback := by
  unfold manualObserve at h
  split at h
  · simp only [Option.bind_eq_bind, Option.bind_eq_some, Option.some.injEq] at h
    obtain ⟨d, hd, acc, hacc, hfin⟩ := h
    obtain rfl := cadd64_some hacc
    rw [← hfin]
    exact ⟨Nat.le_add_right _ _, rfl⟩
  · simp only [Option.some.injEq] at h
    rw [← h]
    exact ⟨Nat.le_refl _, rfl⟩

/-- C5 (amended): `total_sol_used_for_buyback ≤ total_sol_rewards_accrued` is
preserved by purchase, redeem, manual purchase and the buyback request for
every observation, and by the buyback settlement whenever the withdrawn
balance does not exceed the available budget `accrued - used`; the blacklist
operation binds the aggregate state read-only (no `mut`, blacklist.rs line
72) and cannot affect the invariant.  A settlement whose split account
balance exceeds the split budget CAN break the invariant (see the
counterexample). -/
theorem sol_budget_preserved :
    (∀ cfg si usi obs lxr maxs si' usi', SolBudgetInv si →
      purchase cfg si usi obs lxr maxs = .ok (si', usi') → SolBudgetInv si') ∧
    (∀ cfg si usi bal si' usi' c f, SolBudgetInv si →
      redeem cfg si usi bal = .ok (si', usi', c, f) → SolBudgetInv si') ∧
    (∀ si usi obs lxr sol si' usi', SolBudgetInv si →
      manual_purchase si usi obs lxr sol = .ok (si', usi') → SolBudgetInv si') ∧
    (∀ cfg si obs si', SolBudgetInv si → si.buyback_requested = false →
      buyback cfg si obs = .ok si' → SolBudgetInv si') ∧
    (∀ cfg si obs si', SolBudgetInv si → si.buyback_requested = true →
      obs.split_lamports - obs.min_rent
        ≤ si.total_sol_rewards_accrued - si.total_sol_used_for_buyback →
      buyback cfg si obs = .ok si' → SolBudgetInv si') := by
  refine ⟨?_, ?_, ?_, ?_, ?_⟩
  · intro cfg si usi obs lxr maxs si' usi' hinv h
    unfold purchase at h
    simp only [except_bind_ok, liftOpt_ok, requireB_ok, pure, Except.pure,
      Except.ok.injEq, Prod.mk.injEq, exists_const] at h
    obtain ⟨-, -, cb, hcb, r, hr, ca, hca, outU, houtU, -, -, solP, hsolP,
      needed, hneeded, -, si1, hsi1, stk, hstk, cnt, hcnt, ustk, hustk,
      ubase, hubase, hfin1, hfin2⟩ := h
    obtain ⟨hup, heq⟩ := accrueSolRewards_budget hsi1
    rw [← hfin1]
    simp only [SolBudgetInv]
    omega
  · intro cfg si usi bal si' usi' c f hinv h
    unfold redeem at h
    split at h
    · simp only [except_bind_ok, liftOpt_ok, requireB_ok, pure, Except.pure,
        Except.ok.injEq, Prod.mk.injEq, exists_const] at h
      obtain ⟨d, hd, -, n, hn, q1, hq1, q2, hq2, -, m, hm, dd, hdd, ff, hff,
        y4, hy4, cl, hcl, a5, h5, a6, h6, a7, h7, a8, h8, hfin1, -⟩ := h
      rw [← hfin1]
      exact hinv
    · simp only [except_bind_ok, liftOpt_ok, requireB_ok, pure, Except.pure,
        Except.ok.injEq, Prod.mk.injEq, exists_const] at h
      obtain ⟨d, hd, -, n, hn, q1, hq1, q2, hq2, -, y4, hy4, cl, hcl,
        a5, h5, a6, h6, a7, h7, a8, h8, hfin1, -⟩ := h
      rw [← hfin1]
      exact hinv
  · intro si usi obs lxr sol si' usi' hinv h
    unfold manual_purchase at h
    split at h
    · simp only [except_bind_ok, liftOpt_ok, requireB_ok, pure, Except.pure,
        Except.ok.injEq, Prod.mk.injEq, exists_const] at h
      obtain ⟨si1, hsi1, stk, hstk, y, hy, ustk, hustk, ubase, hubase,
        hfin1, hfin2⟩ := h
      obtain ⟨hup, heq⟩ := manualObserve_budget hsi1
      rw [← hfin1]
      simp only [SolBudgetInv]
      omega
    · simp only [except_bind_ok, liftOpt_ok, requireB_ok, pure, Except.pure,
        Except.ok.injEq, Prod.mk.injEq, exists_const] at h
      obtain ⟨si1, hsi1, stk, hstk, d, hd, n, hn, q, hq, pend, hpend, y, hy,
        ustk, hustk, ubase, hubase, hfin1, hfin2⟩ := h
      obtain ⟨hup, heq⟩ := manualObserve_budget hsi1
      rw [← hfin1]
      simp only [SolBudgetInv]
      omega
  · intro cfg si obs si' hinv hflag h
    unfold buyback at h
    rw [hflag] at h
    simp only [Bool.false_eq_true, if_false] at h
    unfold buybackRequest at h
    simp only [except_bind_ok, liftOpt_ok, requireB_ok, pure, Except.pure,
      Except.ok.injEq, exists_const] at h
    obtain ⟨-, -, si1, hsi1, av, hav, -, hfin⟩ := h
    obtain ⟨hup, heq⟩ := accrueSolRewards_budget hsi1
    rw [← hfin]
    simp only [SolBudgetInv]
    omega
  · intro cfg si obs si' hinv hflag hbudget h
    unfold buyback at h
    rw [hflag] at h
    simp only [if_true] at h
    unfold buybackSettle at h
    simp only [except_bind_ok, liftOpt_ok, requireB_ok, pure, Except.pure,
      Except.ok.injEq, exists_const] at h
    obtain ⟨-, -, w, hw, fn, hfn, fq, hfq, -, act, hact, -, cb, hcb, r, hr,
      ca, hca, inU, hinU, -, -, lxr, hlxr, lacc, hlacc, used, hused, inum, hinum,
      iinc, hiinc, lidx, hlidx, cnt, hcnt, hfin⟩ := h
    obtain ⟨hwle, rfl⟩ := csub_some hw
    obtain ⟨hactle, rfl⟩ := csub_some hact
    obtain rfl := cadd64_some hused
    rw [← hfin]
    simp only [SolBudgetInv]
    omega

/-- Witness for C5: the settlement of `siR1` (500 accrued, 0 used) with a
split balance of 450 above rent preserves the budget invariant. -/
theorem sol_budget_preserved_witness :
    SolBudgetInv { siR1 with
      total_luxor_rewards_accrued := 402
      total_sol_used_for_buyback := 405
      last_buyback_timestamp := 22
      reward_per_token_lxr_stored := 402000000
      buyback_count := 1
      buyback_requested := false } :=
  sol_budget_preserved.2.2.2.2 cfgA siR1 obsS1 _ (by decide) (by decide) (by decide) (by decide)

/-- C5 counterexample: a reachable run — purchase from genesis, buyback
request observing 500 lamports of rewards, then settlement of a split
account holding 600 lamports above rent (extra staking rewards arrived while
the split stake was deactivating) — ends with `total_sol_used_for_buyback =
540 > 500 = total_sol_rewards_accrued`, violating the claimed invariant. -/
theorem sol_invariant_counterexample :
    ((purchase cfgA siGenesis usiGenesis obsP 10000 100000).toOption.bind fun p =>
     (buyback cfgA p.1 obsR).toOption.bind fun s1 =>
     (buyback cfgA s1 obsS).toOption.map fun s2 =>
       (s2.total_sol_rewards_accrued, s2.total_sol_used_for_buyback))
      = some (500, 540) ∧
    ¬ (540 ≤ (500 : Nat)) := by
  decide

end LuxorSwap
